import Mathlib

/-!
Verification of the DMS endpoint reconciliation logic
(`aws/resource_aws_dms_endpoint.go`).

Strings are modelled as `List Char`; the Go helpers `strings.Split`
(single-character separators `';'` and `'='` are the only ones used),
`strings.Contains` and `strings.ToLower` are modelled below.  Go `nil`
pointers in request payloads are modelled by `Option`; an out-of-range
slice index (a Go panic) makes the modelled function return `none`.
-/

namespace DmsEndpoint

/-- Strings, modelled as lists of characters. -/
abbrev Str := List Char

/-- Model of Go `strings.Split` with a single-character separator:
splits around every occurrence of `sep`; the result is never empty,
and splitting the empty string yields `[""]`. -/
def splitOn (sep : Char) : Str → List Str
  | [] => [[]]
  | c :: rest =>
    let r := splitOn sep rest
    if c = sep then [] :: r
    else (c :: r.headD []) :: r.tail

/-- Model of Go `strings.Contains`: `pat` occurs as a contiguous
substring of `s` (every string contains the empty string). -/
def containsSub : Str → Str → Bool
  | [], pat => pat.isEmpty
  | c :: t, pat => pat.isPrefixOf (c :: t) || containsSub t pat

/-- Model of Go `strings.ToLower` (the keys involved are ASCII). -/
def toLowerStr (s : Str) : Str := s.map Char.toLower

/-- Model of Terraform `ResourceData.GetOk` on a string attribute:
`ok` is false exactly when the value is the zero value `""`. -/
def getOkStr (s : Str) : Option Str := if s.isEmpty then none else some s

/-- The recognized key token `"compressiontype"` (lines 169/312). -/
def cmpTok : Str := "compressiontype".data

/-- The recognized key token `"csvdelimiter"` (lines 171/314). -/
def delimTok : Str := "csvdelimiter".data

/-- The recognized key token `"csvrowdelimiter"` (lines 173/316). -/
def rowDelimTok : Str := "csvrowdelimiter".data

/-- The three extra-attribute fields of `dms.S3Settings` that the
extra-attribute micro-format can bind; `none` models a nil pointer. -/
structure S3Extra where
  compressionType : Option Str := none
  csvDelimiter : Option Str := none
  csvRowDelimiter : Option Str := none
deriving DecidableEq, Repr

/-- All-nil extra fields: the initial state of the Update path's
`dms.S3Settings` literal (lines 302-306 set no extra fields). -/
def emptyExtra : S3Extra := {}

/-- The Create path's defaults (lines 158-160): note that the Go
literal `"\\n"` is the two-character string backslash-`n`. -/
def createDefaultExtra : S3Extra :=
  { compressionType := some "GZIP".data
    csvDelimiter := some ",".data
    csvRowDelimiter := some "\\n".data }

/-- One iteration of the extra-attribute parse loop (lines 167-176 and
310-319): `vals := strings.Split(elem, "=")`, case-insensitive substring
match of `vals[0]` against the three tokens in if/else-if order, and on
a match the value `vals[1]` is read — `none` models the Go panic when
`vals` has no index 1. -/
def applyExtraElem (st : S3Extra) (elem : Str) : Option S3Extra :=
  let vals := splitOn '=' elem
  let key := toLowerStr (vals.headD [])
  if containsSub key cmpTok then
    (vals[1]?).map fun v => { st with compressionType := some v }
  else if containsSub key delimTok then
    (vals[1]?).map fun v => { st with csvDelimiter := some v }
  else if containsSub key rowDelimTok then
    (vals[1]?).map fun v => { st with csvRowDelimiter := some v }
  else
    some st

/-- The extra-attribute parse (lines 165-177 / 308-320): split on `';'`
and run the loop body over every segment.  (The Go guard
`len(elems) > 0` is always true since `Split` never returns an empty
slice.) -/
def parseExtraAttrs (init : S3Extra) (s : Str) : Option S3Extra :=
  (splitOn ';' s).foldlM applyExtraElem init

example : splitOn ';' "a;b".data = ["a".data, "b".data] := by decide
example : splitOn ';' [] = [[]] := by decide
example : containsSub "xcompressiontypey".data cmpTok = true := by decide
example : parseExtraAttrs emptyExtra "csvdelimiter=a=b".data =
    some { csvDelimiter := some "a".data } := by decide
example : parseExtraAttrs emptyExtra "compressiontype".data = none := by decide

/-- The schema attributes of the resource (lines 28-131), i.e. the
local view Terraform holds of the endpoint.  `id` is the Terraform
resource ID (`d.Id()`); string attributes left unset hold the zero
value `""`, matching the `GetOk` model above.  `tags` is the tag map as
an association list. -/
structure EndpointConfig where
  id : Str
  endpointId : Str
  endpointType : Str
  engineName : Str
  certificateArn : Str
  databaseName : Str
  serviceAccessRole : Str
  bucketName : Str
  bucketFolder : Str
  extraConnectionAttributes : Str
  password : Str
  port : Int
  serverName : Str
  username : Str
  kmsKeyArn : Str
  sslMode : Str
  endpointArn : Str
  tags : List (Str × Str)
deriving DecidableEq, Repr

/-- The `dms.S3Settings` request payload; `none` models a nil field
pointer (the field is absent from the outgoing request). -/
structure S3Settings where
  serviceAccessRoleArn : Option Str := none
  bucketName : Option Str := none
  bucketFolder : Option Str := none
  compressionType : Option Str := none
  csvDelimiter : Option Str := none
  csvRowDelimiter : Option Str := none
deriving DecidableEq, Repr

/-- The `dms.CreateEndpointInput` request (lines 138-202).
`dynamoDbServiceAccessRoleArn` stands for the single field of
`dms.DynamoDbSettings`. -/
structure CreateEndpointInput where
  endpointIdentifier : Str
  endpointType : Str
  engineName : Str
  tags : List (Str × Str)
  dynamoDbServiceAccessRoleArn : Option Str := none
  s3Settings : Option S3Settings := none
  password : Option Str := none
  port : Option Int := none
  serverName : Option Str := none
  username : Option Str := none
  databaseName : Option Str := none
  extraConnectionAttributes : Option Str := none
  kmsKeyId : Option Str := none
  sslMode : Option Str := none
  certificateArn : Option Str := none
deriving DecidableEq, Repr

/-- The s3 case of the Create switch, factored out (lines 151-178):
start from the defaults and, when `extra_connection_attributes` is set
(`GetOk`), run the parse loop over it. -/
def createS3Extra (eca : Str) : Option S3Extra :=
  match getOkStr eca with
  | some v => parseExtraAttrs createDefaultExtra v
  | none => some createDefaultExtra

/-- `resourceAwsDmsEndpointCreate`'s request construction
(lines 138-202): common fields, then the engine switch (`dynamodb`,
`s3`, default = relational), then the optional `certificate_arn`.
`none` models the panic inside the s3 extra-attribute loop. -/
def buildCreateRequest (cfg : EndpointConfig) : Option CreateEndpointInput := do
  let base : CreateEndpointInput :=
    { endpointIdentifier := cfg.endpointId
      endpointType := cfg.endpointType
      engineName := cfg.engineName
      tags := cfg.tags }
  let req ←
    if cfg.engineName = "dynamodb".data then
      pure { base with dynamoDbServiceAccessRoleArn := some cfg.serviceAccessRole }
    else if cfg.engineName = "s3".data then do
      let extra ← createS3Extra cfg.extraConnectionAttributes
      let s3 : S3Settings :=
        { serviceAccessRoleArn := some cfg.serviceAccessRole
          bucketName := some cfg.bucketName
          bucketFolder := some cfg.bucketFolder
          compressionType := extra.compressionType
          csvDelimiter := extra.csvDelimiter
          csvRowDelimiter := extra.csvRowDelimiter }
      pure { base with s3Settings := some s3 }
    else
      pure { base with
        password := some cfg.password
        port := some cfg.port
        serverName := some cfg.serverName
        username := some cfg.username
        databaseName := getOkStr cfg.databaseName
        extraConnectionAttributes := getOkStr cfg.extraConnectionAttributes
        kmsKeyId := getOkStr cfg.kmsKeyArn
        sslMode := getOkStr cfg.sslMode }
  pure { req with certificateArn := getOkStr cfg.certificateArn }

/-- A remote error: either an `awserr.Error` carrying a code, or a
plain error that is not an `awserr.Error`. -/
inductive AwsErr
  | awsCode (code : Str)
  | generic (msg : Str)
deriving DecidableEq, Repr

/-- Outcome of one `conn.CreateEndpoint` attempt. -/
inductive AttemptOutcome
  | success
  | failure (e : AwsErr)
deriving DecidableEq, Repr

/-- The retry classification inside `resource.Retry` (lines 206-219):
only an `awserr.Error` whose code is `"AccessDeniedFault"` is
retryable; every other error is non-retryable. -/
def isRetryableCreateError : AwsErr → Bool
  | .awsCode code => code = "AccessDeniedFault".data
  | .generic _ => false

/-- Result of the Create retry loop. -/
inductive RetryResult
  | ok
  | err (e : AwsErr)
  | timeout
deriving DecidableEq, Repr

/-- The retry ceiling passed to `resource.Retry` (line 206), in
minutes. -/
def dmsCreateRetryMinutes : Nat := 5

/-- The `resource.Retry` loop around `conn.CreateEndpoint`
(lines 206-219).  `attempt i` is the outcome of the i-th remote call;
the 5-minute wall-clock ceiling is abstracted as a `fuel` bound on the
number of attempts, exhaustion of which surfaces as a timeout. -/
def retryCreate (attempt : Nat → AttemptOutcome) : Nat → Nat → RetryResult
  | 0, _ => .timeout
  | fuel + 1, i =>
    match attempt i with
    | .success => .ok
    | .failure e =>
      if isRetryableCreateError e then retryCreate attempt fuel (i + 1)
      else .err e

/-- The `dms.S3Settings` sub-object of a remote `dms.Endpoint`, as read
back by Describe; `resourceAwsDmsEndpointSetState` dereferences its
fields unconditionally (lines 416-421), so they are modelled as plain
strings. -/
structure RemoteS3Settings where
  serviceAccessRoleArn : Str
  bucketName : Str
  bucketFolder : Str
  compressionType : Str
  csvDelimiter : Str
  csvRowDelimiter : Str
deriving DecidableEq, Repr

/-- A remote `dms.Endpoint` as returned by `DescribeEndpoints`. -/
structure RemoteEndpoint where
  endpointIdentifier : Str
  endpointArn : Str
  endpointType : Str
  engineName : Str
  certificateArn : Str
  dynamoDbServiceAccessRoleArn : Option Str
  s3Settings : Option RemoteS3Settings
  databaseName : Str
  extraConnectionAttributes : Str
  port : Int
  serverName : Str
  username : Str
  kmsKeyId : Str
  sslMode : Str
deriving DecidableEq, Repr

/-- The `fmt.Sprintf` reconstruction of the canonical extra-attributes
string on Read (lines 419-421). -/
def serializeS3Extra (ct dl rd : Str) : Str :=
  "compressionType=".data ++ ct ++ ";csvDelimiter=".data ++ dl
    ++ ";csvRowDelimiter=".data ++ rd

/-- `resourceAwsDmsEndpointSetState` (lines 397-439): copy the common
fields (normalizing `endpoint_type` through `strings.ToLower`,
line 404), then the engine switch. -/
def setEndpointState (d : EndpointConfig) (ep : RemoteEndpoint) : EndpointConfig :=
  let d := { d with
    id := ep.endpointIdentifier
    certificateArn := ep.certificateArn
    endpointArn := ep.endpointArn
    endpointId := ep.endpointIdentifier
    endpointType := toLowerStr ep.endpointType
    engineName := ep.engineName }
  if ep.engineName = "dynamodb".data then
    match ep.dynamoDbServiceAccessRoleArn with
    | some arn => { d with serviceAccessRole := arn }
    | none => { d with serviceAccessRole := [] }
  else if ep.engineName = "s3".data then
    match ep.s3Settings with
    | some s =>
      { d with
        serviceAccessRole := s.serviceAccessRoleArn
        bucketFolder := s.bucketFolder
        bucketName := s.bucketName
        extraConnectionAttributes :=
          serializeS3Extra s.compressionType s.csvDelimiter s.csvRowDelimiter }
    | none =>
      { d with
        serviceAccessRole := []
        bucketFolder := []
        bucketName := []
        extraConnectionAttributes := [] }
  else
    { d with
      databaseName := ep.databaseName
      extraConnectionAttributes := ep.extraConnectionAttributes
      port := ep.port
      serverName := ep.serverName
      username := ep.username
      kmsKeyArn := ep.kmsKeyId
      sslMode := ep.sslMode }

/-- Response of `conn.DescribeEndpoints` with the `endpoint-id` filter
(lines 231-238): either a list of matching endpoints or a remote
error.  Per the remote API contract, a filter matching zero endpoints
is reported as the error code `"ResourceNotFoundFault"`. -/
inductive DescribeResult
  | ok (endpoints : List RemoteEndpoint)
  | err (e : AwsErr)

/-- Outcome of `resourceAwsDmsEndpointRead`: the refreshed local state
on success, or the propagated remote error. -/
inductive ReadOutcome
  | ok (d : EndpointConfig)
  | err (e : AwsErr)
deriving DecidableEq, Repr

/-- `resourceAwsDmsEndpointRead` (lines 228-262): on a
`ResourceNotFoundFault` describe error, clear the resource ID and
succeed (lines 240-244); on any other describe error, propagate it;
otherwise take `response.Endpoints[0]` (`none` models the Go panic on
an empty success response), apply `setEndpointState`, then merge in the
`ListTagsForResource` response, propagating its failure. -/
def readEndpoint (d : EndpointConfig) (resp : DescribeResult)
    (tagsResp : Except AwsErr (List (Str × Str))) : Option ReadOutcome :=
  match resp with
  | .err e =>
    if e = .awsCode "ResourceNotFoundFault".data then
      some (.ok { d with id := [] })
    else
      some (.err e)
  | .ok eps =>
    match eps with
    | [] => none
    | ep :: _ =>
      let d := setEndpointState d ep
      match tagsResp with
      | .error e => some (.err e)
      | .ok tl => some (.ok { d with tags := tl })

/-- The `dms.ModifyEndpointInput` request (lines 267-356). -/
structure ModifyEndpointInput where
  endpointArn : Str
  endpointType : Option Str := none
  certificateArn : Option Str := none
  databaseName : Option Str := none
  engineName : Option Str := none
  dynamoDbServiceAccessRoleArn : Option Str := none
  s3Settings : Option S3Settings := none
  extraConnectionAttributes : Option Str := none
  password : Option Str := none
  port : Option Int := none
  serverName : Option Str := none
  sslMode : Option Str := none
  username : Option Str := none
deriving DecidableEq, Repr

/-- A remote call issued by Update: the main `ModifyEndpoint` call, or
the tag synchronization `dmsSetTags` (the Tag Synchronizer lives in a
sibling source file; per the spec its contract is "make the remote tags
for this ARN equal the desired tags", so it is modelled as a single
abstract call carrying the ARN and the desired tag map). -/
inductive RemoteCall
  | modifyEndpoint (req : ModifyEndpointInput)
  | setTags (arn : Str) (tags : List (Str × Str))
deriving DecidableEq, Repr

/-- What Update does, assuming the remote calls themselves succeed:
the calls it issues in order, and whether it finishes by re-running
Read (line 374). -/
structure UpdateResult where
  calls : List RemoteCall
  readAfter : Bool
deriving DecidableEq, Repr

/-- The Go pattern `if d.HasChange(f) { request.X = ...; hasChanges =
true }`: `HasChange` holds when the old and new values differ. -/
def applyChange {α : Type} [DecidableEq α] (ov nv : α)
    (upd : ModifyEndpointInput → ModifyEndpointInput)
    (p : ModifyEndpointInput × Bool) : ModifyEndpointInput × Bool :=
  if ov ≠ nv then (upd p.1, true) else p

/-- The shared `DONE` tail of Update (lines 365-377): if any field
changed, issue `ModifyEndpoint` with the accumulated request and then
re-run Read; otherwise succeed without any call. -/
def updateDone (req : ModifyEndpointInput) (hasChanges : Bool)
    (calls : List RemoteCall) : UpdateResult :=
  if hasChanges then
    { calls := calls ++ [.modifyEndpoint req], readAfter := true }
  else
    { calls := calls, readAfter := false }

/-- Lines 333-363 followed by `DONE`: the checks after the engine
switch (password, port, server_name, ssl_mode, username), then the tag
synchronization when `tags` changed, then the shared tail. -/
def updateTail (old new : EndpointConfig)
    (p : ModifyEndpointInput × Bool) : UpdateResult :=
  let p := applyChange old.password new.password
    (fun r => { r with password := some new.password }) p
  let p := applyChange old.port new.port
    (fun r => { r with port := some new.port }) p
  let p := applyChange old.serverName new.serverName
    (fun r => { r with serverName := some new.serverName }) p
  let p := applyChange old.sslMode new.sslMode
    (fun r => { r with sslMode := some new.sslMode }) p
  let p := applyChange old.username new.username
    (fun r => { r with username := some new.username }) p
  let calls :=
    if old.tags ≠ new.tags then [RemoteCall.setTags new.endpointArn new.tags]
    else []
  updateDone p.1 p.2 calls

/-- The condition of the s3 case of the Update switch (line 301): any
of the four s3 settings constituents changed. -/
def s3SettingsChanged (old new : EndpointConfig) : Prop :=
  old.serviceAccessRole ≠ new.serviceAccessRole
    ∨ old.bucketName ≠ new.bucketName
    ∨ old.bucketFolder ≠ new.bucketFolder
    ∨ old.extraConnectionAttributes ≠ new.extraConnectionAttributes

instance (old new : EndpointConfig) : Decidable (s3SettingsChanged old new) := by
  unfold s3SettingsChanged; infer_instance

/-- `resourceAwsDmsEndpointUpdate` (lines 264-378): the four leading
field checks, the engine switch (where the s3 branch, when any of its
four constituents changed, rebuilds the whole `S3Settings` sub-object
from the current extra-attributes string and jumps straight to `DONE`,
skipping the remaining checks and the tag synchronization), and the
shared tail.  `none` models the panic inside the s3 extra-attribute
loop. -/
def updateEndpoint (old new : EndpointConfig) : Option UpdateResult :=
  let p : ModifyEndpointInput × Bool := ({ endpointArn := new.endpointArn }, false)
  let p := applyChange old.endpointType new.endpointType
    (fun r => { r with endpointType := some new.endpointType }) p
  let p := applyChange old.certificateArn new.certificateArn
    (fun r => { r with certificateArn := some new.certificateArn }) p
  let p := applyChange old.databaseName new.databaseName
    (fun r => { r with databaseName := some new.databaseName }) p
  let p := applyChange old.engineName new.engineName
    (fun r => { r with engineName := some new.engineName }) p
  if new.engineName = "dynamodb".data then
    let p := applyChange old.serviceAccessRole new.serviceAccessRole
      (fun r => { r with dynamoDbServiceAccessRoleArn := some new.serviceAccessRole }) p
    some (updateTail old new p)
  else if new.engineName = "s3".data then
    if s3SettingsChanged old new then
      match parseExtraAttrs emptyExtra new.extraConnectionAttributes with
      | none => none
      | some e =>
        let s3 : S3Settings :=
          { serviceAccessRoleArn := some new.serviceAccessRole
            bucketFolder := some new.bucketFolder
            bucketName := some new.bucketName
            compressionType := e.compressionType
            csvDelimiter := e.csvDelimiter
            csvRowDelimiter := e.csvRowDelimiter }
        let req := { p.1 with s3Settings := some s3 }
        some (updateDone req true [])
    else
      some (updateTail old new p)
  else
    let p := applyChange old.extraConnectionAttributes new.extraConnectionAttributes
      (fun r => { r with extraConnectionAttributes := some new.extraConnectionAttributes }) p
    some (updateTail old new p)

/-- `resourceAwsDmsEndpointDelete` (lines 380-395): one unconditional
`DeleteEndpoint` call addressed by ARN; its error, if any, is
propagated. -/
def deleteEndpoint (_d : EndpointConfig)
    (remote : Except AwsErr Unit) : Except AwsErr Unit :=
  match remote with
  | .error e => .error e
  | .ok _ => .ok ()

/-- Whether an update issued the tag synchronization call. -/
def hasSetTagsCall (r : UpdateResult) : Bool :=
  r.calls.any fun c =>
    match c with
    | .setTags _ _ => true
    | _ => false

/-- The `s3Settings` payloads of the `ModifyEndpoint` calls an update
issued. -/
def sentS3Settings (r : UpdateResult) : List (Option S3Settings) :=
  r.calls.filterMap fun c =>
    match c with
    | .modifyEndpoint q => some q.s3Settings
    | _ => none

/-- The three extra attributes the codec recognizes. -/
inductive S3Attr
  | compression
  | delim
  | rowDelim
deriving DecidableEq, Repr

/-- The lowercase token whose containment in the (lowercased) key binds
a segment to the attribute. -/
def attrToken : S3Attr → Str
  | .compression => cmpTok
  | .delim => delimTok
  | .rowDelim => rowDelimTok

/-- The Create-path default value of each extra attribute
(lines 158-160; the row delimiter default is the two-character Go
literal `"\\n"`). -/
def attrDefault : S3Attr → Str
  | .compression => "GZIP".data
  | .delim => ",".data
  | .rowDelim => "\\n".data

/-- Overwrite one extra-attribute field. -/
def setAttr (a : S3Attr) (v : Str) (st : S3Extra) : S3Extra :=
  match a with
  | .compression => { st with compressionType := some v }
  | .delim => { st with csvDelimiter := some v }
  | .rowDelim => { st with csvRowDelimiter := some v }

/-- Project one extra-attribute field. -/
def getAttr (a : S3Attr) (st : S3Extra) : Option Str :=
  match a with
  | .compression => st.compressionType
  | .delim => st.csvDelimiter
  | .rowDelim => st.csvRowDelimiter

/-- Which attribute, if any, a segment binds: the first token (in the
source's if/else-if order) contained in the lowercased key part. -/
def bindsTo (elem : Str) : Option S3Attr :=
  let key := toLowerStr ((splitOn '=' elem).headD [])
  if containsSub key cmpTok then some .compression
  else if containsSub key delimTok then some .delim
  else if containsSub key rowDelimTok then some .rowDelim
  else none

/-- Whether a key contains at least one of the three recognized
tokens. -/
def recognizedKey (key : Str) : Bool :=
  containsSub key cmpTok || containsSub key delimTok || containsSub key rowDelimTok

/-- Binding a parsed key/value pair to the first matching field, in the
source's if/else-if priority order (describes the amended C4
behavior). -/
def bindFirstMatch (key v : Str) (st : S3Extra) : S3Extra :=
  if containsSub key cmpTok then { st with compressionType := some v }
  else if containsSub key delimTok then { st with csvDelimiter := some v }
  else if containsSub key rowDelimTok then { st with csvRowDelimiter := some v }
  else st

/-- A well-formed input segment for one of the three attributes: a key
that is a case-variant of the attribute's token, and key and value
free of the two separator characters. -/
structure Seg where
  attr : S3Attr
  key : Str
  val : Str
deriving DecidableEq, Repr

/-- Well-formedness of a segment (see `Seg`). -/
def Seg.wf (sg : Seg) : Prop :=
  toLowerStr sg.key = attrToken sg.attr ∧ ';' ∉ sg.key ∧ '=' ∉ sg.key
    ∧ ';' ∉ sg.val ∧ '=' ∉ sg.val

instance (sg : Seg) : Decidable sg.wf := by
  unfold Seg.wf; infer_instance

/-- The concrete `key=value` text of a segment. -/
def Seg.str (sg : Seg) : Str := sg.key ++ '=' :: sg.val

/-- Join segments with `';'` (inverse of splitting on `';'`). -/
def joinSemis : List Str → Str
  | [] => []
  | [s] => s
  | s :: rest => s ++ ';' :: joinSemis rest

/-- The value an attribute ends up with after parsing a segment list
over the Create defaults: the value of the (unique) segment for it, or
its default when omitted. -/
def canonValue (l : List Seg) (a : S3Attr) : Str :=
  match l.find? (fun sg => sg.attr == a) with
  | some sg => sg.val
  | none => attrDefault a

/-- A sample s3 endpoint state (all optional attributes unset, empty
tag set). -/
def baseS3Cfg : EndpointConfig :=
  { id := "ep1".data
    endpointId := "ep1".data
    endpointType := "target".data
    engineName := "s3".data
    certificateArn := []
    databaseName := []
    serviceAccessRole := "role-a".data
    bucketName := "bkt".data
    bucketFolder := "a".data
    extraConnectionAttributes := []
    password := []
    port := 0
    serverName := []
    username := []
    kmsKeyArn := []
    sslMode := []
    endpointArn := "arn-1".data
    tags := [] }

/-! ## Basic lemmas -/

/-- The tail shared by all Update paths appends only the main modify
call, so whether a tag synchronization call was issued is decided by
the `calls` accumulated before it. -/
theorem hasSetTagsCall_updateDone (req : ModifyEndpointInput) (hc : Bool)
    (calls : List RemoteCall) :
    hasSetTagsCall (updateDone req hc calls)
      = calls.any fun c =>
          match c with
          | .setTags _ _ => true
          | _ => false := by
  cases hc <;> simp [updateDone, hasSetTagsCall]

/-- In the non-jump paths of Update, the tag synchronization call is
issued exactly when the tag map changed. -/
theorem hasSetTagsCall_updateTail (old new : EndpointConfig)
    (p : ModifyEndpointInput × Bool) :
    hasSetTagsCall (updateTail old new p) = decide (old.tags ≠ new.tags) := by
  unfold updateTail
  rw [hasSetTagsCall_updateDone]
  split
  · next h => simp [h]
  · next h => simp [h]

/-- `setEndpointState` always stores the lowercased remote
`endpoint_type`, in every branch of its engine switch. -/
theorem setEndpointState_endpointType (d : EndpointConfig) (ep : RemoteEndpoint) :
    (setEndpointState d ep).endpointType = toLowerStr ep.endpointType := by
  unfold setEndpointState
  repeat' split <;> try rfl

/-- Splitting a separator-free string yields that string alone. -/
theorem splitOn_sepFree (sep : Char) (s : Str) (h : sep ∉ s) :
    splitOn sep s = [s] := by
  induction s with
  | nil => rfl
  | cons c t ih =>
    have hc : c ≠ sep := fun hh => h (hh ▸ List.mem_cons_self c t)
    have ht : sep ∉ t := fun hm => h (List.mem_cons_of_mem _ hm)
    simp [splitOn, hc, ih ht]

/-- Splitting around the first separator occurrence peels off the
separator-free part before it. -/
theorem splitOn_append (sep : Char) (a b : Str) (h : sep ∉ a) :
    splitOn sep (a ++ sep :: b) = a :: splitOn sep b := by
  induction a with
  | nil => simp [splitOn]
  | cons c t ih =>
    have hc : c ≠ sep := fun hh => h (hh ▸ List.mem_cons_self c t)
    have ht : sep ∉ t := fun hm => h (List.mem_cons_of_mem _ hm)
    simp [splitOn, hc, ih ht]

/-- A loop iteration cannot fail when its segment either is
unrecognized or carries at least one `'='` (so that index 1 into the
`'='`-split exists). -/
theorem applyExtraElem_isSome (st : S3Extra) (elem : Str)
    (h : recognizedKey (toLowerStr ((splitOn '=' elem).headD [])) = true →
      2 ≤ (splitOn '=' elem).length) :
    (applyExtraElem st elem).isSome = true := by
  simp only [applyExtraElem]
  cases h1 : containsSub (toLowerStr ((splitOn '=' elem).headD [])) cmpTok with
  | true =>
    have hl := h (by simp only [recognizedKey, Bool.or_eq_true]; exact Or.inl (Or.inl h1))
    obtain ⟨v, hv⟩ : ∃ v, (splitOn '=' elem)[1]? = some v := by
      cases hx : (splitOn '=' elem)[1]? with
      | some v => exact ⟨v, rfl⟩
      | none => rw [List.getElem?_eq_none_iff] at hx; omega
    simp [h1, hv]
  | false =>
    cases h2 : containsSub (toLowerStr ((splitOn '=' elem).headD [])) delimTok with
    | true =>
      have hl := h (by simp only [recognizedKey, Bool.or_eq_true]; exact Or.inl (Or.inr h2))
      obtain ⟨v, hv⟩ : ∃ v, (splitOn '=' elem)[1]? = some v := by
        cases hx : (splitOn '=' elem)[1]? with
        | some v => exact ⟨v, rfl⟩
        | none => rw [List.getElem?_eq_none_iff] at hx; omega
      simp [h1, h2, hv]
    | false =>
      cases h3 : containsSub (toLowerStr ((splitOn '=' elem).headD [])) rowDelimTok with
      | true =>
        have hl := h (by simp only [recognizedKey, Bool.or_eq_true]; exact Or.inr h3)
        obtain ⟨v, hv⟩ : ∃ v, (splitOn '=' elem)[1]? = some v := by
          cases hx : (splitOn '=' elem)[1]? with
          | some v => exact ⟨v, rfl⟩
          | none => rw [List.getElem?_eq_none_iff] at hx; omega
        simp [h1, h2, h3, hv]
      | false => simp [h1, h2, h3]

/-- The parse loop cannot fail when every iteration cannot. -/
theorem foldlM_applyExtraElem_isSome (l : List Str) (init : S3Extra)
    (h : ∀ elem ∈ l, ∀ st : S3Extra, (applyExtraElem st elem).isSome = true) :
    (l.foldlM applyExtraElem init).isSome = true := by
  induction l generalizing init with
  | nil => rfl
  | cons x t ih =>
    rw [List.foldlM_cons]
    cases hx : applyExtraElem init x with
    | none =>
      have hc := h x (by simp) init
      rw [hx] at hc
      simp at hc
    | some st' =>
      simp only [hx, Option.bind_eq_bind, Option.some_bind]
      exact ih st' fun e he st => h e (by simp [he]) st

/-- A loop iteration that binds no segment to attribute `a` leaves
field `a` unchanged. -/
theorem applyExtraElem_preserve (st st' : S3Extra) (elem : Str) (a : S3Attr)
    (h : applyExtraElem st elem = some st') (hb : bindsTo elem ≠ some a) :
    getAttr a st' = getAttr a st := by
  simp only [applyExtraElem] at h
  simp only [bindsTo] at hb
  cases h1 : containsSub (toLowerStr ((splitOn '=' elem).headD [])) cmpTok with
  | true =>
    simp only [h1, if_true] at h hb
    obtain ⟨v, hv, rfl⟩ := Option.map_eq_some'.mp h
    have ha : a ≠ .compression := fun hh => hb (by rw [hh])
    cases a <;> simp_all [getAttr]
  | false =>
    simp only [h1, Bool.false_eq_true, if_false] at h hb
    cases h2 : containsSub (toLowerStr ((splitOn '=' elem).headD [])) delimTok with
    | true =>
      simp only [h2, if_true] at h hb
      obtain ⟨v, hv, rfl⟩ := Option.map_eq_some'.mp h
      have ha : a ≠ .delim := fun hh => hb (by rw [hh])
      cases a <;> simp_all [getAttr]
    | false =>
      simp only [h2, Bool.false_eq_true, if_false] at h hb
      cases h3 : containsSub (toLowerStr ((splitOn '=' elem).headD [])) rowDelimTok with
      | true =>
        simp only [h3, if_true] at h hb
        obtain ⟨v, hv, rfl⟩ := Option.map_eq_some'.mp h
        have ha : a ≠ .rowDelim := fun hh => hb (by rw [hh])
        cases a <;> simp_all [getAttr]
      | false =>
        simp only [h3, Bool.false_eq_true, if_false] at h
        obtain rfl := Option.some.inj h
        rfl

/-- A successful parse over segments none of which binds attribute `a`
leaves field `a` at its initial value. -/
theorem foldlM_applyExtraElem_preserve (l : List Str) (init e : S3Extra)
    (a : S3Attr) (h : l.foldlM applyExtraElem init = some e)
    (hb : ∀ elem ∈ l, bindsTo elem ≠ some a) :
    getAttr a e = getAttr a init := by
  induction l generalizing init with
  | nil =>
    simp only [List.foldlM_nil] at h
    obtain rfl := Option.some.inj h
    rfl
  | cons x t ih =>
    rw [List.foldlM_cons] at h
    cases hx : applyExtraElem init x with
    | none => rw [hx] at h; simp at h
    | some st' =>
      rw [hx] at h
      simp only [Option.bind_eq_bind, Option.some_bind] at h
      rw [ih st' h fun e' he' => hb e' (by simp [he']),
        applyExtraElem_preserve init st' x a hx (hb x (by simp))]

/-- `isPrefixOf` is reflexive. -/
theorem isPrefixOf_refl (l : Str) : l.isPrefixOf l = true := by
  induction l with
  | nil => rfl
  | cons c t ih => simp [List.isPrefixOf, ih]

/-- Every string contains itself as a substring. -/
theorem containsSub_self (s : Str) : containsSub s s = true := by
  cases s with
  | nil => rfl
  | cons c t => simp [containsSub, isPrefixOf_refl]

/-- On a well-formed segment, the loop iteration binds exactly the
segment's attribute to the segment's value. -/
theorem applyExtraElem_seg (st : S3Extra) (sg : Seg) (h : sg.wf) :
    applyExtraElem st sg.str = some (setAttr sg.attr sg.val st) := by
  obtain ⟨a, k, vl⟩ := sg
  obtain ⟨hkey, hks, hk, hvs, hv⟩ := h
  simp only at hkey hks hk hvs hv
  have hsplit : splitOn '=' (Seg.str ⟨a, k, vl⟩) = [k, vl] := by
    show splitOn '=' (k ++ '=' :: vl) = [k, vl]
    rw [splitOn_append '=' _ _ hk, splitOn_sepFree '=' _ hv]
  simp only [applyExtraElem, hsplit, List.headD_cons]
  cases a with
  | compression =>
    rw [show attrToken S3Attr.compression = cmpTok from rfl] at hkey
    rw [hkey]
    simp [containsSub_self, setAttr]
  | delim =>
    rw [show attrToken S3Attr.delim = delimTok from rfl] at hkey
    rw [hkey]
    have c1 : containsSub delimTok cmpTok = false := by decide
    simp [c1, containsSub_self, setAttr]
  | rowDelim =>
    rw [show attrToken S3Attr.rowDelim = rowDelimTok from rfl] at hkey
    rw [hkey]
    have c1 : containsSub rowDelimTok cmpTok = false := by decide
    have c2 : containsSub rowDelimTok delimTok = false := by decide
    simp [c1, c2, containsSub_self, setAttr]

/-- Parsing a list of well-formed segments succeeds and folds the
attribute bindings over the initial state in order. -/
theorem foldlM_applyExtraElem_segs (l : List Seg) (init : S3Extra)
    (hwf : ∀ sg ∈ l, sg.wf) :
    (l.map Seg.str).foldlM applyExtraElem init
      = some (l.foldl (fun st sg => setAttr sg.attr sg.val st) init) := by
  induction l generalizing init with
  | nil => rfl
  | cons sg t ih =>
    rw [List.map_cons, List.foldlM_cons,
      applyExtraElem_seg init sg (hwf sg (by simp))]
    simp only [Option.bind_eq_bind, Option.some_bind]
    rw [ih _ fun s hs => hwf s (by simp [hs])]
    rfl

/-- Splitting on `';'` undoes joining with `';'` for nonempty lists of
separator-free strings. -/
theorem splitOn_joinSemis (l : List Str) (h : ∀ s ∈ l, ';' ∉ s)
    (hne : l ≠ []) : splitOn ';' (joinSemis l) = l := by
  induction l with
  | nil => exact absurd rfl hne
  | cons s t ih =>
    cases t with
    | nil => exact splitOn_sepFree ';' s (h s (by simp))
    | cons s2 t2 =>
      rw [show joinSemis (s :: s2 :: t2) = s ++ ';' :: joinSemis (s2 :: t2)
        from rfl]
      rw [splitOn_append ';' _ _ (h s (by simp)),
        ih (fun x hx => h x (by simp [hx])) (by simp)]

/-- The text of a well-formed segment is free of `';'`. -/
theorem seg_str_sepFree (sg : Seg) (h : sg.wf) : ';' ∉ sg.str := by
  obtain ⟨hkey, hks, hk, hvs, hv⟩ := h
  intro hm
  rw [Seg.str] at hm
  rcases List.mem_append.mp hm with h1 | h2
  · exact hks h1
  · rcases List.mem_cons.mp h2 with h3 | h4
    · exact absurd h3 (by decide)
    · exact hvs h4

/-- The text of a segment is never empty. -/
theorem seg_str_ne_nil (sg : Seg) : sg.str ≠ [] := by
  simp [Seg.str]

/-- Joining a nonempty list headed by a nonempty string is nonempty. -/
theorem joinSemis_cons_ne_nil (s : Str) (t : List Str) (h : s ≠ []) :
    joinSemis (s :: t) ≠ [] := by
  cases t with
  | nil => exact h
  | cons s2 t2 => simp [joinSemis]

/-- Setting an attribute stores its value. -/
theorem getAttr_setAttr_self (a : S3Attr) (v : Str) (st : S3Extra) :
    getAttr a (setAttr a v st) = some v := by
  cases a <;> rfl

/-- Setting one attribute leaves the others unchanged. -/
theorem getAttr_setAttr_ne (a b : S3Attr) (v : Str) (st : S3Extra)
    (h : b ≠ a) : getAttr a (setAttr b v st) = getAttr a st := by
  cases a <;> cases b <;> first | rfl | exact absurd rfl h

/-- Distinct attribute updates commute. -/
theorem setAttr_comm (a b : S3Attr) (v w : Str) (st : S3Extra) (h : a ≠ b) :
    setAttr b w (setAttr a v st) = setAttr a v (setAttr b w st) := by
  cases a <;> cases b <;> first | exact absurd rfl h | rfl

/-- Folding bindings none of which touches attribute `a` leaves field
`a` unchanged. -/
theorem getAttr_foldl_not_mem (l : List Seg) (init : S3Extra) (a : S3Attr)
    (h : ∀ sg ∈ l, sg.attr ≠ a) :
    getAttr a (l.foldl (fun st sg => setAttr sg.attr sg.val st) init)
      = getAttr a init := by
  induction l generalizing init with
  | nil => rfl
  | cons sg t ih =>
    rw [List.foldl_cons, ih _ fun s hs => h s (by simp [hs]),
      getAttr_setAttr_ne a sg.attr _ _ (h sg (by simp))]

/-- With pairwise-distinct attributes, the fold stores, for each
attribute, the value of its unique segment, and leaves unmentioned
attributes at their initial value. -/
theorem getAttr_foldl_nodup (l : List Seg) (init : S3Extra) (a : S3Attr)
    (hn : (l.map Seg.attr).Nodup) :
    getAttr a (l.foldl (fun st sg => setAttr sg.attr sg.val st) init)
      = match l.find? (fun sg => sg.attr == a) with
        | some sg => some sg.val
        | none => getAttr a init := by
  induction l generalizing init with
  | nil => rfl
  | cons sg t ih =>
    rw [List.map_cons, List.nodup_cons] at hn
    obtain ⟨hnotin, hn⟩ := hn
    rw [List.foldl_cons]
    by_cases ha : sg.attr = a
    · subst ha
      have hfind : (sg :: t).find? (fun s => s.attr == sg.attr) = some sg := by
        simp [List.find?_cons]
      rw [hfind]
      have ht : ∀ s ∈ t, s.attr ≠ sg.attr := by
        intro s hs hsa
        exact hnotin (hsa ▸ List.mem_map_of_mem Seg.attr hs)
      rw [getAttr_foldl_not_mem t _ sg.attr ht,
        getAttr_setAttr_self sg.attr sg.val init]
    · have hfind : (sg :: t).find? (fun s => s.attr == a)
          = t.find? (fun s => s.attr == a) := by
        simp [List.find?_cons, ha]
      rw [hfind, ih _ hn]
      cases t.find? (fun s => s.attr == a) with
      | some s => rfl
      | none => exact getAttr_setAttr_ne a sg.attr _ _ ha

/-! ## Claim theorems -/

/-- Claim C2: a Read whose identifier-filtered lookup yields zero
matches (reported by the remote API as a `ResourceNotFoundFault`)
returns success-with-absence: the resource ID is cleared and no error
is reported, whatever the rest of the local state and whatever the tag
fetch would have returned. -/
theorem read_zero_matches_success_absence (d : EndpointConfig)
    (tagsResp : Except AwsErr (List (Str × Str))) :
    readEndpoint d (.err (.awsCode "ResourceNotFoundFault".data)) tagsResp
      = some (.ok { d with id := [] }) := by
  simp [readEndpoint]

/-- Claim C8: for both enum values of the role, the uppercase form
returned by the remote system is normalized to the lowercase canonical
form by `setEndpointState` on every Read, for every engine kind and
every other remote field. -/
theorem read_normalizes_role_case (d : EndpointConfig) (ep : RemoteEndpoint) :
    (setEndpointState d { ep with endpointType := "SOURCE".data }).endpointType
        = "source".data ∧
    (setEndpointState d { ep with endpointType := "TARGET".data }).endpointType
        = "target".data := by
  rw [setEndpointState_endpointType, setEndpointState_endpointType]
  constructor <;> · dsimp only; decide

/-- Claim C9: an Update in which no field (including tags) changed
issues zero remote calls, does not re-run Read, and returns success. -/
theorem update_no_changes_noop (cfg : EndpointConfig) :
    updateEndpoint cfg cfg = some { calls := [], readAfter := false } := by
  simp [updateEndpoint, updateTail, updateDone, applyChange, s3SettingsChanged]

/-- Claim C5: the Create retry loop runs under a 5-minute ceiling and
retries exactly on the access-denial fault: a first attempt failing
with any non-`AccessDeniedFault` error aborts immediately (one
attempt, that error propagated), while a first attempt failing with
`AccessDeniedFault` continues with the next attempt. -/
theorem create_retry_access_denied_only (attempt : Nat → AttemptOutcome)
    (fuel : Nat) (e : AwsErr) :
    dmsCreateRetryMinutes = 5 ∧
    (isRetryableCreateError e = true ↔ e = .awsCode "AccessDeniedFault".data) ∧
    (attempt 0 = .failure e → isRetryableCreateError e = false →
      retryCreate attempt (fuel + 1) 0 = .err e) ∧
    (attempt 0 = .failure (.awsCode "AccessDeniedFault".data) →
      retryCreate attempt (fuel + 1) 0 = retryCreate attempt fuel 1) := by
  refine ⟨rfl, ?_, ?_, ?_⟩
  · cases e with
    | awsCode c => simp [isRetryableCreateError]
    | generic m => simp [isRetryableCreateError]
  · intro h he
    simp [retryCreate, h, he]
  · intro h
    simp [retryCreate, h, isRetryableCreateError]

/-- Witness for C5 at concrete inputs: a generic failure aborts with
that error on the spot; an access-denial failure followed by a success
ends in success (so a second attempt was made). -/
theorem create_retry_access_denied_only_witness :
    retryCreate (fun _ => .failure (.generic "boom".data)) 3 0
        = .err (.generic "boom".data) ∧
    retryCreate
        (fun i => if i = 0 then .failure (.awsCode "AccessDeniedFault".data)
          else .success) 3 0 = .ok := by
  constructor
  · exact (create_retry_access_denied_only
      (fun _ => .failure (.generic "boom".data)) 2
      (.generic "boom".data)).2.2.1 rfl rfl
  · have h := (create_retry_access_denied_only
      (fun i => if i = 0 then .failure (.awsCode "AccessDeniedFault".data)
        else .success) 2 (.generic [])).2.2.2 (by decide)
    rw [h]
    decide

/-- Claim C1 as stated is false: for this s3 endpoint whose settings
sub-object also changed (`bucket_folder` differs) and whose tags
changed, Update issues no tag synchronization call — the forward jump
to `DONE` (line 324) skips the `d.HasChange("tags")` block
(lines 358-363). -/
theorem update_tag_sync_skipped_counterexample :
    baseS3Cfg.tags
        ≠ ({ baseS3Cfg with
              bucketFolder := "b".data
              tags := [("k".data, "v".data)] } : EndpointConfig).tags ∧
    (updateEndpoint baseS3Cfg
        { baseS3Cfg with
          bucketFolder := "b".data
          tags := [("k".data, "v".data)] }).map hasSetTagsCall
      = some false := by
  decide

/-- Claim C1 amended: an Update issues the tag synchronization call
exactly when the tags changed AND it is not the case that the engine is
s3 with one of the four s3 settings constituents also changed; in that
latter case the jump to `DONE` skips the synchronization. -/
theorem update_tag_sync_unless_s3_jump (old new : EndpointConfig)
    (r : UpdateResult) (h : updateEndpoint old new = some r) :
    hasSetTagsCall r = true ↔
      (old.tags ≠ new.tags ∧
        ¬(new.engineName = "s3".data ∧ s3SettingsChanged old new)) := by
  unfold updateEndpoint at h
  by_cases hd : new.engineName = "dynamodb".data
  · rw [if_pos hd] at h
    have hs3 : new.engineName ≠ "s3".data := by rw [hd]; decide
    obtain rfl : updateTail old new _ = r := Option.some.inj h
    rw [hasSetTagsCall_updateTail]
    simp [hs3]
  · rw [if_neg hd] at h
    by_cases hs : new.engineName = "s3".data
    · rw [if_pos hs] at h
      by_cases hch : s3SettingsChanged old new
      · rw [if_pos hch] at h
        cases hpe : parseExtraAttrs emptyExtra new.extraConnectionAttributes with
        | none => rw [hpe] at h; exact absurd h (by simp)
        | some e =>
          rw [hpe] at h
          obtain rfl : updateDone _ true [] = r := Option.some.inj h
          rw [hasSetTagsCall_updateDone]
          simp [hs, hch]
      · rw [if_neg hch] at h
        obtain rfl : updateTail old new _ = r := Option.some.inj h
        rw [hasSetTagsCall_updateTail]
        simp [hs, hch]
    · rw [if_neg hs] at h
      obtain rfl : updateTail old new _ = r := Option.some.inj h
      rw [hasSetTagsCall_updateTail]
      simp [hs]

/-- Witness for the amended C1: an s3 endpoint whose tags changed but
whose s3 settings did not — the tag synchronization call is issued. -/
theorem update_tag_sync_unless_s3_jump_witness :
    updateEndpoint baseS3Cfg { baseS3Cfg with tags := [("k".data, "v".data)] }
        = some { calls := [.setTags "arn-1".data [("k".data, "v".data)]]
                 readAfter := false } ∧
    (hasSetTagsCall
        { calls := [.setTags "arn-1".data [("k".data, "v".data)]]
          readAfter := false } = true ↔
      (baseS3Cfg.tags
          ≠ ({ baseS3Cfg with tags := [("k".data, "v".data)] } : EndpointConfig).tags ∧
        ¬(({ baseS3Cfg with tags := [("k".data, "v".data)] } : EndpointConfig).engineName
              = "s3".data ∧
          s3SettingsChanged baseS3Cfg
            { baseS3Cfg with tags := [("k".data, "v".data)] }))) :=
  ⟨by decide,
   update_tag_sync_unless_s3_jump baseS3Cfg
     { baseS3Cfg with tags := [("k".data, "v".data)] } _ (by decide)⟩

/-- Claim C3 as stated is false: for this s3 endpoint update in which
only `bucket_folder` changed (and whose current extra-attributes
string is empty), the outgoing modify request's settings sub-object
carries the access role, bucket name and bucket folder but none of the
three extra-attribute fields — the Update path has no defaulting. -/
theorem update_s3_full_settings_counterexample :
    (updateEndpoint baseS3Cfg { baseS3Cfg with bucketFolder := "b".data }).map
        sentS3Settings
      = some [some
          { serviceAccessRoleArn := some "role-a".data
            bucketName := some "bkt".data
            bucketFolder := some "b".data }] ∧
    ({ serviceAccessRoleArn := some "role-a".data
       bucketName := some "bkt".data
       bucketFolder := some "b".data } : S3Settings).compressionType = none := by
  decide

/-- Claim C3 amended: when any of the four s3 settings constituents
changed, the modify request carries a settings sub-object with the
access role, bucket name and bucket folder always present (at their
desired values), while each of the three extra-attribute fields is
present exactly as bound by re-parsing the current extra-attributes
string from an all-absent initial state (no defaulting on Update). -/
theorem update_s3_settings_resent_as_parsed (old new : EndpointConfig)
    (e : S3Extra) (hEng : new.engineName = "s3".data)
    (hCh : s3SettingsChanged old new)
    (hParse : parseExtraAttrs emptyExtra new.extraConnectionAttributes = some e) :
    (updateEndpoint old new).map sentS3Settings
      = some [some
          { serviceAccessRoleArn := some new.serviceAccessRole
            bucketName := some new.bucketName
            bucketFolder := some new.bucketFolder
            compressionType := e.compressionType
            csvDelimiter := e.csvDelimiter
            csvRowDelimiter := e.csvRowDelimiter }] := by
  have hnd : new.engineName ≠ "dynamodb".data := by rw [hEng]; decide
  unfold updateEndpoint
  rw [if_neg hnd, if_pos hEng, if_pos hCh, hParse]
  simp [updateDone, sentS3Settings]

/-- Witness for the amended C3: only `bucket_folder` changed and the
current string binds only `compressionType`, so the sent sub-object
has `csvDelimiter` and `csvRowDelimiter` absent. -/
theorem update_s3_settings_resent_as_parsed_witness :
    ({ baseS3Cfg with
        bucketFolder := "b".data
        extraConnectionAttributes := "compressionType=NONE".data
          } : EndpointConfig).engineName = "s3".data ∧
    s3SettingsChanged baseS3Cfg
      { baseS3Cfg with
        bucketFolder := "b".data
        extraConnectionAttributes := "compressionType=NONE".data } ∧
    parseExtraAttrs emptyExtra "compressionType=NONE".data
        = some { compressionType := some "NONE".data } ∧
    (updateEndpoint baseS3Cfg
        { baseS3Cfg with
          bucketFolder := "b".data
          extraConnectionAttributes := "compressionType=NONE".data }).map
        sentS3Settings
      = some [some
          { serviceAccessRoleArn := some "role-a".data
            bucketName := some "bkt".data
            bucketFolder := some "b".data
            compressionType := some "NONE".data }] :=
  ⟨by decide, by decide, by decide,
   update_s3_settings_resent_as_parsed baseS3Cfg
     { baseS3Cfg with
       bucketFolder := "b".data
       extraConnectionAttributes := "compressionType=NONE".data }
     { compressionType := some "NONE".data } (by decide) (by decide) (by decide)⟩

/-- Claim C10: the parser is total exactly under the precondition that
every segment whose key contains a recognized token also contains an
`'='` (equivalently, its `'='`-split has at least two pieces); under
that precondition the parse succeeds from any initial state, and on the
recognized-key segment `"compressiontype"` with no `'='` the value
access is out of range, so the embedded parse returns `none`. -/
theorem parse_total_iff_recognized_has_value (init : S3Extra) (s : Str)
    (h : ∀ elem ∈ splitOn ';' s,
      recognizedKey (toLowerStr ((splitOn '=' elem).headD [])) = true →
        2 ≤ (splitOn '=' elem).length) :
    (parseExtraAttrs init s).isSome = true ∧
    parseExtraAttrs emptyExtra "compressiontype".data = none := by
  refine ⟨?_, by decide⟩
  exact foldlM_applyExtraElem_isSome _ init
    fun e he st => applyExtraElem_isSome st e (h e he)

/-- Witness for C10: a string with one recognized `key=value` segment
and one unrecognized `=`-less segment satisfies the precondition, and
the parse succeeds. -/
theorem parse_total_iff_recognized_has_value_witness :
    (∀ elem ∈ splitOn ';' "compressionType=GZIP;foo".data,
      recognizedKey (toLowerStr ((splitOn '=' elem).headD [])) = true →
        2 ≤ (splitOn '=' elem).length) ∧
    ((parseExtraAttrs emptyExtra "compressionType=GZIP;foo".data).isSome = true ∧
      parseExtraAttrs emptyExtra "compressiontype".data = none) :=
  ⟨by decide,
   parse_total_iff_recognized_has_value emptyExtra
     "compressionType=GZIP;foo".data (by decide)⟩

/-- Claim C7 as stated is false: for an s3 Create with no
extra-attributes override, the `csvRowDelimiter` sent in the create
request is the two-character string backslash-`n` (the Go literal
`"\\n"`), not the newline character. -/
theorem create_s3_row_delimiter_counterexample :
    (buildCreateRequest baseS3Cfg).map
        (fun r => r.s3Settings.map S3Settings.csvRowDelimiter)
      = some (some (some ['\\', 'n'])) ∧
    (['\\', 'n'] : Str) ≠ "\n".data := by
  decide

/-- Claim C7 amended: on an s3 Create, the request's extra-attribute
fields start from the defaults compressionType `"GZIP"`, csvDelimiter
`","` and csvRowDelimiter the two-character literal backslash-`n`; with
no extra-attributes string the defaults are sent as is; the sent
sub-object carries exactly the parse result; and any attribute no
segment binds keeps its default. -/
theorem create_s3_extra_defaults (cfg : EndpointConfig)
    (hEng : cfg.engineName = "s3".data) :
    (getOkStr cfg.extraConnectionAttributes = none →
      createS3Extra cfg.extraConnectionAttributes = some createDefaultExtra) ∧
    (∀ ex, createS3Extra cfg.extraConnectionAttributes = some ex →
      (buildCreateRequest cfg).map (fun r => r.s3Settings)
        = some (some
            { serviceAccessRoleArn := some cfg.serviceAccessRole
              bucketName := some cfg.bucketName
              bucketFolder := some cfg.bucketFolder
              compressionType := ex.compressionType
              csvDelimiter := ex.csvDelimiter
              csvRowDelimiter := ex.csvRowDelimiter })) ∧
    (∀ v e a, parseExtraAttrs createDefaultExtra v = some e →
      (∀ elem ∈ splitOn ';' v, bindsTo elem ≠ some a) →
      getAttr a e = some (attrDefault a)) ∧
    attrDefault .compression = "GZIP".data ∧
    attrDefault .delim = ",".data ∧
    attrDefault .rowDelim = ['\\', 'n'] := by
  have hnd : cfg.engineName ≠ "dynamodb".data := by rw [hEng]; decide
  refine ⟨?_, ?_, ?_, rfl, rfl, by decide⟩
  · intro h
    simp [createS3Extra, h]
  · intro ex hex
    simp only [buildCreateRequest]
    rw [if_neg hnd, if_pos hEng, hex]
    simp
  · intro v e a hp hb
    have hpres := foldlM_applyExtraElem_preserve (splitOn ';' v)
      createDefaultExtra e a hp hb
    rw [hpres]
    cases a <;> rfl

/-- Claim C4 as stated is false on two counts, at two concrete inputs:
the value bound is the piece between the first and the second `'='`
(`"a"`, not everything after the first `'='`, `"a=b"`); and a key
containing several recognized tokens binds only the first one in the
if/else-if order (a key containing the `csvdelimiter` token binds
compressionType and leaves csvDelimiter unset, against the claim's
"exactly when"). -/
theorem extra_attr_parse_counterexample :
    (parseExtraAttrs emptyExtra "csvdelimiter=a=b".data
        = some { csvDelimiter := some "a".data } ∧
      ("a".data : Str) ≠ "a=b".data) ∧
    (parseExtraAttrs emptyExtra "compressiontypecsvdelimiter=x".data
        = some { compressionType := some "x".data } ∧
      containsSub (toLowerStr "compressiontypecsvdelimiter".data) delimTok = true ∧
      S3Extra.csvDelimiter { compressionType := some "x".data } = none) := by
  decide

/-- Claim C4 amended: the parse splits on `';'`, then splits each
segment on every `'='`; the value used is the piece between the first
and the second `'='` (anything after a second `'='` is dropped); a
segment binds the first attribute, in the fixed order compressionType,
csvDelimiter, csvRowDelimiter, whose token its lowercased key contains
as a substring; and every segment whose key contains none of the three
tokens is silently ignored. -/
theorem extra_attr_segment_semantics (st : S3Extra) (k v rest : Str)
    (hk : '=' ∉ k) (hv : '=' ∉ v)
    (hrest : rest = [] ∨ ∃ w, rest = '=' :: w) :
    applyExtraElem st (k ++ '=' :: (v ++ rest))
      = some (bindFirstMatch (toLowerStr k) v st) ∧
    ∀ elem, recognizedKey (toLowerStr ((splitOn '=' elem).headD [])) = false →
      applyExtraElem st elem = some st := by
  constructor
  · have hsplit : splitOn '=' (k ++ '=' :: (v ++ rest))
        = k :: splitOn '=' (v ++ rest) := splitOn_append '=' k _ hk
    have hval : (splitOn '=' (v ++ rest))[0]? = some v := by
      rcases hrest with rfl | ⟨w, rfl⟩
      · rw [List.append_nil, splitOn_sepFree '=' v hv]
        simp
      · rw [splitOn_append '=' v w hv]
        simp
    have hget : (k :: splitOn '=' (v ++ rest))[1]?
        = (splitOn '=' (v ++ rest))[0]? := by simp
    simp only [applyExtraElem, bindFirstMatch, hsplit, hget, hval,
      List.headD_cons]
    split_ifs <;> simp
  · intro elem h
    simp only [recognizedKey, Bool.or_eq_false_iff] at h
    obtain ⟨⟨h1, h2⟩, h3⟩ := h
    simp only [applyExtraElem, h1, h2, h3, Bool.false_eq_true, if_false]

/-- Witness for the amended C4: a mixed-case row-delimiter segment with
a separator-free key and value binds csvRowDelimiter to the value. -/
theorem extra_attr_segment_semantics_witness :
    ('=' ∉ "CsvRowDelimiter".data) ∧ ('=' ∉ "x".data) ∧
    applyExtraElem emptyExtra ("CsvRowDelimiter".data ++ '=' :: ("x".data ++ []))
      = some (bindFirstMatch (toLowerStr "CsvRowDelimiter".data) "x".data emptyExtra) :=
  ⟨by decide, by decide,
   (extra_attr_segment_semantics emptyExtra "CsvRowDelimiter".data "x".data []
     (by decide) (by decide) (Or.inl rfl)).1⟩

/-- Claim C6: for any list of well-formed extra-attribute segments
with pairwise-distinct attributes, presented in any order and any key
casing, the Create-path parse yields the canonical assignment — each
supplied attribute's value, defaults for omitted ones — independently
of the presentation order; and the string rebuilt on Read from these
values consists of exactly three `key=value` pairs in the fixed order
compressionType, csvDelimiter, csvRowDelimiter. -/
theorem s3_extra_roundtrip_canonical (l lp : List Seg) (hp : l.Perm lp)
    (hn : (l.map Seg.attr).Nodup) (hwf : ∀ sg ∈ l, sg.wf) :
    createS3Extra (joinSemis (lp.map Seg.str))
      = some { compressionType := some (canonValue l .compression)
               csvDelimiter := some (canonValue l .delim)
               csvRowDelimiter := some (canonValue l .rowDelim) } ∧
    splitOn ';' (serializeS3Extra (canonValue l .compression)
        (canonValue l .delim) (canonValue l .rowDelim))
      = ["compressionType=".data ++ canonValue l .compression,
         "csvDelimiter=".data ++ canonValue l .delim,
         "csvRowDelimiter=".data ++ canonValue l .rowDelim] := by
  have hwfp : ∀ sg ∈ lp, sg.wf := fun sg hs => hwf sg (hp.mem_iff.mpr hs)
  have hcv : ∀ a, ';' ∉ canonValue l a := by
    intro a
    unfold canonValue
    cases hf : l.find? (fun sg => sg.attr == a) with
    | some sg => exact (hwf sg (List.mem_of_find?_eq_some hf)).2.2.2.1
    | none => cases a <;> decide
  constructor
  · have hval : ∀ a,
        getAttr a (l.foldl (fun st sg => setAttr sg.attr sg.val st)
          createDefaultExtra) = some (canonValue l a) := by
      intro a
      rw [getAttr_foldl_nodup l createDefaultExtra a hn]
      unfold canonValue
      cases l.find? (fun sg => sg.attr == a) with
      | some sg => rfl
      | none => cases a <;> rfl
    have hcomm : ∀ x ∈ l, ∀ y ∈ l, ∀ z : S3Extra,
        setAttr y.attr y.val (setAttr x.attr x.val z)
          = setAttr x.attr x.val (setAttr y.attr y.val z) := by
      intro x hx y hy z
      by_cases hxy : x.attr = y.attr
      · rw [List.inj_on_of_nodup_map hn hx hy hxy]
      · exact setAttr_comm x.attr y.attr x.val y.val z hxy
    cases lp with
    | nil =>
      have hl : l = [] := hp.eq_nil
      subst hl
      rfl
    | cons s0 t0 =>
      have hne : joinSemis ((s0 :: t0).map Seg.str) ≠ [] := by
        rw [List.map_cons]
        exact joinSemis_cons_ne_nil _ _ (seg_str_ne_nil s0)
      have hok : getOkStr (joinSemis ((s0 :: t0).map Seg.str))
          = some (joinSemis ((s0 :: t0).map Seg.str)) := by
        rw [getOkStr, if_neg]
        simpa [List.isEmpty_iff] using hne
      unfold createS3Extra
      rw [hok]
      show parseExtraAttrs createDefaultExtra _ = _
      unfold parseExtraAttrs
      rw [splitOn_joinSemis _
          (by
            intro s hs
            obtain ⟨sg, hsg, rfl⟩ := List.mem_map.mp hs
            exact seg_str_sepFree sg (hwfp sg hsg))
          (by simp),
        foldlM_applyExtraElem_segs _ createDefaultExtra hwfp,
        ← (hp.foldl_eq' hcomm createDefaultExtra)]
      rcases hXd : l.foldl (fun st sg => setAttr sg.attr sg.val st)
        createDefaultExtra with ⟨ct, cd, crd⟩
      have e1 := hval .compression
      have e2 := hval .delim
      have e3 := hval .rowDelim
      rw [hXd] at e1 e2 e3
      simp only [getAttr] at e1 e2 e3
      rw [hXd, e1, e2, e3]
  · have l1 : (";csvDelimiter=".data : Str) = ';' :: "csvDelimiter=".data := by
      decide
    have l2 : (";csvRowDelimiter=".data : Str)
        = ';' :: "csvRowDelimiter=".data := by decide
    have h1f : ';' ∉ "compressionType=".data ++ canonValue l .compression := by
      intro hm
      rcases List.mem_append.mp hm with h | h
      · exact absurd h (by decide)
      · exact hcv .compression h
    have h2f : ';' ∉ "csvDelimiter=".data ++ canonValue l .delim := by
      intro hm
      rcases List.mem_append.mp hm with h | h
      · exact absurd h (by decide)
      · exact hcv .delim h
    have h3f : ';' ∉ "csvRowDelimiter=".data ++ canonValue l .rowDelim := by
      intro hm
      rcases List.mem_append.mp hm with h | h
      · exact absurd h (by decide)
      · exact hcv .rowDelim h
    have hassoc : serializeS3Extra (canonValue l .compression)
        (canonValue l .delim) (canonValue l .rowDelim)
        = ("compressionType=".data ++ canonValue l .compression)
            ++ ';' :: (("csvDelimiter=".data ++ canonValue l .delim)
              ++ ';' :: ("csvRowDelimiter=".data ++ canonValue l .rowDelim)) := by
      rw [serializeS3Extra, l1, l2]
      simp [List.append_assoc]
    rw [hassoc, splitOn_append ';' _ _ h1f, splitOn_append ';' _ _ h2f,
      splitOn_sepFree ';' _ h3f]

/-- Witness for C6: the two segments `CSVDelimiter=|` and
`CompressionType=NONE`, in either order, parse to the same canonical
assignment with the row-delimiter default filled in, and it serializes
to the canonical three-pair string. -/
theorem s3_extra_roundtrip_canonical_witness :
    ([⟨.delim, "CSVDelimiter".data, "|".data⟩,
      ⟨.compression, "CompressionType".data, "NONE".data⟩] : List Seg).Perm
      [⟨.compression, "CompressionType".data, "NONE".data⟩,
       ⟨.delim, "CSVDelimiter".data, "|".data⟩] ∧
    createS3Extra (joinSemis
        (([⟨.compression, "CompressionType".data, "NONE".data⟩,
           ⟨.delim, "CSVDelimiter".data, "|".data⟩] : List Seg).map Seg.str))
      = some { compressionType := some (canonValue
                 [⟨.delim, "CSVDelimiter".data, "|".data⟩,
                  ⟨.compression, "CompressionType".data, "NONE".data⟩] .compression)
               csvDelimiter := some (canonValue
                 [⟨.delim, "CSVDelimiter".data, "|".data⟩,
                  ⟨.compression, "CompressionType".data, "NONE".data⟩] .delim)
               csvRowDelimiter := some (canonValue
                 [⟨.delim, "CSVDelimiter".data, "|".data⟩,
                  ⟨.compression, "CompressionType".data, "NONE".data⟩] .rowDelim) } :=
  ⟨by decide,
   (s3_extra_roundtrip_canonical
     [⟨.delim, "CSVDelimiter".data, "|".data⟩,
      ⟨.compression, "CompressionType".data, "NONE".data⟩]
     [⟨.compression, "CompressionType".data, "NONE".data⟩,
      ⟨.delim, "CSVDelimiter".data, "|".data⟩]
     (by decide) (by decide) (by decide)).1⟩

/-- Witness for the amended C7: the sample s3 endpoint has no
extra-attributes string, so the create request carries exactly the
three defaults. -/
theorem create_s3_extra_defaults_witness :
    baseS3Cfg.engineName = "s3".data ∧
    (buildCreateRequest baseS3Cfg).map (fun r => r.s3Settings)
      = some (some
          { serviceAccessRoleArn := some "role-a".data
            bucketName := some "bkt".data
            bucketFolder := some "a".data
            compressionType := some "GZIP".data
            csvDelimiter := some ",".data
            csvRowDelimiter := some "\\n".data }) :=
  ⟨by decide,
   (create_s3_extra_defaults baseS3Cfg (by decide)).2.1 createDefaultExtra
     ((create_s3_extra_defaults baseS3Cfg (by decide)).1 (by decide))⟩

end DmsEndpoint
